import Mathlib

/-!
Verification of the ndps_app workflow orchestrator.

Shallow embedding of:
* `app/langgraph/workflow.py` — the conditional-routing functions
  `route_all_sections` and `route_from_historical_cases` that partition a
  requested section set into the wave executed after fact extraction and the
  wave executed after `historical_cases` completes;
* `app/utils/retry.py` — `exponential_backoff_retry`;
* `app/routes/upload.py` — `upload_pdf` request validation, the job store
  record, and `process_workflow_background` (job status/progress updates,
  graph streaming, result storage);
* `app/routes/results.py` / `app/routes/utils.py` — result storage shape.

Machine details that do not affect the verified properties are modelled in a
standard way: Python dictionaries become association lists of `String` keys to
opaque `String` values, LLM/RAG-backed task bodies become an oracle parameter
(`TaskImpl`) that either fails with a message or returns the partial state
update the component's `return` statement produces, and Python float division
in the progress formula becomes `Nat` floor division.
-/

namespace NdpsApp

/-- The sentinel node name used by langgraph for graph termination
(`END` in `workflow.py`). -/
def END : String := "__end__"

/-- `workflow.py` lines 42-50: the local list
`components_needing_historical_cases` inside `route_all_sections` — the
section names whose tasks require the `historical_cases` output. -/
def components_needing_historical_cases : List String :=
  ["investigation_plan",
   "evidence",
   "dos_and_donts",
   "weaknesses",
   "defence_rebuttal",
   "court_summary",
   "chargesheet"]

/-- `workflow.py` lines 52-55:
`any(section in selected_sections for section in components_needing_historical_cases)`. -/
def needs_historical_cases (sections : List String) : Prop :=
  ∃ s ∈ components_needing_historical_cases, s ∈ sections

instance (sections : List String) : Decidable (needs_historical_cases sections) := by
  unfold needs_historical_cases
  infer_instance

/-- `workflow.py` lines 36-97 (`route_all_sections`), without the final
`routes if routes else [END]` guard: the list of node names routed in
parallel right after `extract_fir_fact`. -/
def route_all_sections_raw (sections : List String) : List String :=
  (if needs_historical_cases sections ∨ "historical_cases" ∈ sections
     then ["historical_cases"] else []) ++
  (if "ndps" ∈ sections then ["ndps_legal_mapping"] else []) ++
  (if "bns" ∈ sections then ["bns_legal_mapping"] else []) ++
  (if "bnss" ∈ sections then ["bnss_legal_mapping"] else []) ++
  (if "bsa" ∈ sections then ["bsa_legal_mapping"] else []) ++
  (if "timeline" ∈ sections then ["investigation_and_legal_timeline"] else []) ++
  (if needs_historical_cases sections then [] else
    (if "investigation_plan" ∈ sections then ["investigation_plan"] else []) ++
    (if "evidence" ∈ sections then ["generate_evidence_checklist"] else []) ++
    (if "dos_and_donts" ∈ sections then ["generate_dos_and_donts"] else []) ++
    (if "weaknesses" ∈ sections then ["generate_potential_prosecution_weaknesses"] else []) ++
    (if "defence_rebuttal" ∈ sections then ["generate_defence_perspective_rebuttal"] else []) ++
    (if "court_summary" ∈ sections then ["generate_summary_for_the_court"] else []) ++
    (if "chargesheet" ∈ sections then ["generate_chargesheet"] else []))

/-- `workflow.py` line 97: `return routes if routes else [END]`. -/
def route_all_sections (sections : List String) : List String :=
  if route_all_sections_raw sections = [] then [END] else route_all_sections_raw sections

/-- `workflow.py` lines 99-119 (`route_from_historical_cases`), without the
final `routes if routes else [END]` guard. -/
def route_from_historical_cases_raw (sections : List String) : List String :=
  (if "investigation_plan" ∈ sections then ["investigation_plan"] else []) ++
  (if "evidence" ∈ sections then ["generate_evidence_checklist"] else []) ++
  (if "dos_and_donts" ∈ sections then ["generate_dos_and_donts"] else []) ++
  (if "weaknesses" ∈ sections then ["generate_potential_prosecution_weaknesses"] else []) ++
  (if "defence_rebuttal" ∈ sections then ["generate_defence_perspective_rebuttal"] else []) ++
  (if "court_summary" ∈ sections then ["generate_summary_for_the_court"] else []) ++
  (if "chargesheet" ∈ sections then ["generate_chargesheet"] else [])

/-- `workflow.py` line 119: `return routes if routes else [END]`. -/
def route_from_historical_cases (sections : List String) : List String :=
  if route_from_historical_cases_raw sections = [] then [END]
  else route_from_historical_cases_raw sections

/-- The section-name ↦ node-name table for the tasks that depend on the
`historical_cases` prerequisite (read off the `if ... in selected_sections`
branches of `route_from_historical_cases`). -/
def dependent_section_nodes : List (String × String) :=
  [("investigation_plan", "investigation_plan"),
   ("evidence", "generate_evidence_checklist"),
   ("dos_and_donts", "generate_dos_and_donts"),
   ("weaknesses", "generate_potential_prosecution_weaknesses"),
   ("defence_rebuttal", "generate_defence_perspective_rebuttal"),
   ("court_summary", "generate_summary_for_the_court"),
   ("chargesheet", "generate_chargesheet")]

/-- The section-name ↦ node-name table for the zero-dependency tasks
(read off the independent branches of `route_all_sections`). -/
def independent_section_nodes : List (String × String) :=
  [("ndps", "ndps_legal_mapping"),
   ("bns", "bns_legal_mapping"),
   ("bnss", "bnss_legal_mapping"),
   ("bsa", "bsa_legal_mapping"),
   ("timeline", "investigation_and_legal_timeline")]

/-! ## Retry wrapper (`app/utils/retry.py`) -/

/-- The retry loop of `exponential_backoff_retry` (`retry.py` lines 22-44)
from a given attempt number with a given number of retries still allowed.
`op i` is the outcome of the `i`-th invocation of the wrapped function
(0-based).  Returns the final outcome together with the total number of
invocations performed.  Sleeping and the jittered wait-time computation do
not influence the outcome and are omitted. -/
def retry_from {E A : Type} (op : Nat → Except E A) : Nat → Nat → Except E A × Nat
  | attempt, 0 => (op attempt, attempt + 1)
  | attempt, remaining + 1 =>
    match op attempt with
    | Except.ok a => (Except.ok a, attempt + 1)
    | Except.error _ => retry_from op (attempt + 1) remaining

/-- `exponential_backoff_retry(max_retries)` applied to an operation:
at most `max_retries + 1` total invocations (1 initial + `max_retries`
retries), re-raising the last error when all fail. -/
def exponential_backoff_retry {E A : Type} (max_retries : Nat)
    (op : Nat → Except E A) : Except E A × Nat :=
  retry_from op 0 max_retries

/-! ## Workflow state and graph execution
(`app/langgraph/state.py`, `app/langgraph/workflow.py` graph wiring) -/

/-- The langgraph workflow state (`app/langgraph/state.py`): the selected
sections plus a mapping from field names to field values.  Field values
(PDF bytes, extracted text, LLM outputs, ...) are opaque to the orchestrator
and are modelled as `String`s; the mapping is an association list with
unique keys. -/
structure GraphState where
  sections : List String
  fields : List (String × String)
deriving Repr, DecidableEq

/-- `state.get(key)` on the field mapping. -/
def GraphState.get (st : GraphState) (k : String) : Option String :=
  st.fields.lookup k

/-- Python dict assignment `d[k] = v`: overwrite-or-add a single field. -/
def setField (fs : List (String × String)) (k v : String) : List (String × String) :=
  (k, v) :: fs.filter (fun p => p.1 ≠ k)

/-- Fold a partial state update returned by a graph node into the state
(langgraph merges each node's returned dict into the shared state). -/
def applyUpdate (st : GraphState) (upd : List (String × String)) : GraphState :=
  { st with fields := upd.foldl (fun fs p => setField fs p.1 p.2) st.fields }

/-- Python `d.pop(k, None)`: remove a field if present. -/
def GraphState.erase (st : GraphState) (k : String) : GraphState :=
  { st with fields := st.fields.filter (fun p => p.1 ≠ k) }

/-- A task implementation oracle: a graph node either fails with an
exception message or returns the partial state update of its `return`
statement.  The LLM/RAG bodies of the components are opaque behind this
interface (spec §4.2 `TaskUnit`). -/
abbrev TaskImpl := String → GraphState → Except String (List (String × String))

/-- Run a list of graph nodes in order, threading the shared state.  Returns
the nodes actually invoked (in order) and the final state, or the first
node's exception (langgraph propagates a node's exception out of
`graph.stream`, and later nodes do not run). -/
def runNodes (impl : TaskImpl) :
    List String → GraphState → List String × Except String GraphState
  | [], st => ([], Except.ok st)
  | n :: rest, st =>
    match impl n st with
    | Except.error e => ([n], Except.error e)
    | Except.ok upd =>
      let r := runNodes impl rest (applyUpdate st upd)
      (n :: r.1, r.2)

/-- `graph.stream` on the compiled graph of `workflow.py` lines 121-199:
the fixed path `read_pdf → extract_fir_fact`, then the conditional wave
computed by `route_all_sections`, then — only after the `historical_cases`
node has completed — the wave computed by `route_from_historical_cases`.
`END` entries terminate a branch and are not nodes.  Within-wave parallelism
is modelled by sequential execution in routing order.  Returns the invoked
nodes in order, and the final state or the first exception. -/
def graph_stream (impl : TaskImpl) (st : GraphState) :
    List String × Except String GraphState :=
  let wave0 := (route_all_sections st.sections).filter (fun n => n ≠ END)
  let r0 := runNodes impl (["read_pdf", "extract_fir_fact"] ++ wave0) st
  match r0.2 with
  | Except.error e => (r0.1, Except.error e)
  | Except.ok st1 =>
    if "historical_cases" ∈ wave0 then
      let wave1 := (route_from_historical_cases st1.sections).filter (fun n => n ≠ END)
      let r1 := runNodes impl wave1 st1
      (r0.1 ++ r1.1, r1.2)
    else (r0.1, Except.ok st1)

/-! ## Job records and the background processing task (`app/routes/upload.py`) -/

/-- One snapshot of `job_store[job_id]` (`upload.py` lines 200-207;
timestamps omitted). -/
structure JobRecord where
  status : String
  workflow_id : Option String
  progress : Nat
  error : Option String
deriving Repr, DecidableEq

/-- A job snapshot while the run is in flight: the code only ever writes
`status = "processing"` before the terminal write (`upload.py` lines 39,
200-207), with varying progress. -/
def processingRecord (p : Nat) : JobRecord :=
  { status := "processing", workflow_id := none, progress := p, error := none }

/-- The terminal snapshot of a successful run (`upload.py` lines 128-131,
modelled as one snapshot). -/
def completedRecord (workflow_id : String) : JobRecord :=
  { status := "completed", workflow_id := some workflow_id, progress := 100,
    error := none }

/-- The terminal snapshot of a failed run (`upload.py` lines 141-143):
`status` and `error` are written, `progress` keeps its last value. -/
def failedRecord (e : String) (p : Nat) : JobRecord :=
  { status := "failed", workflow_id := none, progress := p, error := some e }

/-- The record `upload_pdf` writes when it creates a job
(`upload.py` lines 200-207). -/
def initialJobRecord : JobRecord := processingRecord 0

/-- `upload.py` line 99:
`min(10 + int((completed_nodes / max(total_nodes, 1)) * 85), 95)`;
Python float division followed by `int` truncation is modelled as `Nat`
floor division. -/
def node_progress (total completed : Nat) : Nat :=
  min (10 + completed * 85 / max total 1) 95

/-- `upload.py` line 63: `list(set(prior_sections + sections_list))`.
Python's unspecified set iteration order is modelled as first-occurrence
order; only membership matters downstream. -/
def merge_sections (prior new : List String) : List String :=
  (prior ++ new).eraseDups

/-- Everything observable about one `process_workflow_background` run:
the sequence of `job_store[job_id]` snapshots (one per mutation of the
record, starting from the record `upload_pdf` created), split into the
snapshots before the terminal write (`frontTrace`) and the snapshot after
it (`finalJob`); the graph nodes invoked; the checkpointer state after a
successful run; and the `results_store[workflow_id]` entry written on
success.  (The checkpointer's partial state after a failed run is not
modelled; no claim depends on it.) -/
structure BackgroundResult where
  frontTrace : List JobRecord
  finalJob : JobRecord
  invoked : List String
  checkpoint : Option GraphState
  storedResult : Option GraphState
deriving Repr, DecidableEq

/-- The full sequence of `job_store[job_id]` snapshots of a run. -/
def BackgroundResult.jobTrace (r : BackgroundResult) : List JobRecord :=
  r.frontTrace ++ [r.finalJob]

/-- `upload.py` lines 45-52: the prior state is loaded only when continuing
an existing workflow. -/
def bg_loaded (is_new_workflow : Bool) (prior : Option GraphState) :
    Option GraphState :=
  if is_new_workflow then none else prior

/-- `upload.py` lines 54-63: the graph input state — fresh state with the
uploaded PDF and the requested sections for a new workflow; the loaded
prior state with the merged section list for a continuation. -/
def bg_graph_state (file_bytes filename : Option String)
    (sections_list : List String) (is_new_workflow : Bool)
    (prior : Option GraphState) : GraphState :=
  let base : GraphState :=
    (bg_loaded is_new_workflow prior).getD { sections := [], fields := [] }
  if is_new_workflow then
    { sections := sections_list,
      fields :=
        match file_bytes with
        | some b =>
          setField (setField base.fields "pdf_bytes" b)
            "pdf_filename" (filename.getD "document.pdf")
        | none => base.fields }
  else
    { base with sections := merge_sections base.sections sections_list }

/-- The `job_store` snapshots written before graph streaming starts:
creation (progress 0), line 39-41 (progress 5), and line 52 (progress 10,
only when a prior state was loaded). -/
def bg_front0 (is_new_workflow : Bool) (prior : Option GraphState) :
    List JobRecord :=
  [initialJobRecord, processingRecord 5] ++
    (if (bg_loaded is_new_workflow prior).isSome
      then [processingRecord 10] else [])

/-- `upload.py` lines 97-98: one progress event fires per *completed* node;
a node that raises produces no event. -/
def bg_completed (invoked : List String) (out : Except String GraphState) : Nat :=
  match out with
  | Except.ok _ => invoked.length
  | Except.error _ => invoked.length - 1

/-- `upload.py` lines 122-125: `result.pop("pdf_bytes", None)` then
`result["workflow_id"] = workflow_id`, the dict stored in
`results_store[workflow_id]`. -/
def stored_of (stF : GraphState) (workflow_id : String) : GraphState :=
  let popped := stF.erase "pdf_bytes"
  { popped with fields := setField popped.fields "workflow_id" workflow_id }

/-- `process_workflow_background` (`upload.py` lines 23-143).  `prior` is
what `graph.get_state(config)` returns for the session's thread
(`none` when there is no usable prior state); `impl` implements the graph
nodes.  The writes to `job_store[job_id]` happen in source order:
creation (progress 0, by `upload_pdf`), lines 39-41 (progress 5), line 52
(progress 10, only when a prior state was loaded), line 75 (progress 10),
one write per streamed node event (lines 99-101), and the terminal write
(lines 128-131 on success, modelled as one snapshot, or lines 141-143 on
failure, which leaves `progress` at its last value). -/
def process_workflow_background (impl : TaskImpl) (workflow_id : String)
    (file_bytes : Option String) (filename : Option String)
    (sections_list : List String) (is_new_workflow : Bool)
    (prior : Option GraphState) : BackgroundResult :=
  let gs := bg_graph_state file_bytes filename sections_list is_new_workflow prior
  let front0 := bg_front0 is_new_workflow prior
  if gs.sections = [] then
    { frontTrace := front0,
      finalJob := failedRecord "No sections selected for processing"
        (if (bg_loaded is_new_workflow prior).isSome then 10 else 5),
      invoked := [], checkpoint := none, storedResult := none }
  else
    let sr := graph_stream impl gs
    let total := gs.sections.length + 2
    let completed := bg_completed sr.1 sr.2
    let front := front0 ++ processingRecord 10 ::
      (List.range completed).map (fun k => processingRecord (node_progress total (k + 1)))
    match sr.2 with
    | Except.ok stF =>
      { frontTrace := front,
        finalJob := completedRecord workflow_id,
        invoked := sr.1, checkpoint := some stF,
        storedResult := some (stored_of stF workflow_id) }
    | Except.error e =>
      { frontTrace := front,
        finalJob := failedRecord e
          (if completed = 0 then 10 else node_progress total completed),
        invoked := sr.1, checkpoint := none, storedResult := none }

/-! ## The upload endpoint (`app/routes/upload.py` lines 146-228) -/

/-- The JSON body `upload_pdf` returns on success (line 223-228). -/
structure UploadResponse where
  success : Bool
  job_id : String
  status : String
deriving Repr, DecidableEq

/-- `upload.py` lines 161-165: `json.loads(sections) if sections else []`,
with a `JSONDecodeError` (`parse_json s = none`) also giving `[]`. -/
def parsed_sections_list (parse_json : String → Option (List String))
    (sections : Option String) : List String :=
  match sections with
  | none => []
  | some s => (parse_json s).getD []

/-- `upload_pdf` request validation and job creation (`upload.py` lines
146-228), up to the point where the background task is scheduled.
`parse_json` is the `json.loads` oracle (`none` = `JSONDecodeError`);
`sections` is the raw form field; `file` is `(filename, bytes)` of the
uploaded file part; `prior` is `graph.get_state` for the session (`none`
when absent or empty, i.e. `is_new_workflow`).  Returns the HTTP error
status of a raised `HTTPException`, or the success response, together with
the resulting `job_store` (an association list `job_id ↦ record`). -/
def upload_pdf (parse_json : String → Option (List String))
    (sections : Option String) (file : Option (String × String))
    (prior : Option GraphState) (job_id : String)
    (job_store : List (String × JobRecord)) :
    Except Nat UploadResponse × List (String × JobRecord) :=
  if parsed_sections_list parse_json sections = [] then
    (Except.error 400, job_store)
  else if prior.isNone then
    match file with
    | none => (Except.error 400, job_store)
    | some (fname, _) =>
      if fname = "" ∨ ¬ fname.endsWith ".pdf" then (Except.error 400, job_store)
      else
        (Except.ok { success := true, job_id := job_id, status := "processing" },
         job_store ++ [(job_id, initialJobRecord)])
  else
    (Except.ok { success := true, job_id := job_id, status := "processing" },
     job_store ++ [(job_id, initialJobRecord)])

/-! ## Result display (`app/routes/results.py`, `app/routes/utils.py`) -/

/-- The source state field each display key of `format_state_for_display`
(`routes/utils.py` lines 55-92) is computed from.  The value
transformations (JSON parsing of section lists, preview truncation) act on
values that are opaque in this model; `"stats"` aggregates counts of other
keys and has no single source field. -/
def display_source_field (st : GraphState) : String → Option String
  | "pdf_filename" => (st.get "pdf_filename").orElse (fun _ => st.get "pdf_path")
  | "pdf_content_preview" => st.get "pdf_content"
  | "pdf_content_in_english_preview" => st.get "pdf_content_in_english"
  | "ndps_sections" => st.get "ndps_sections_mapped"
  | "bns_sections" => st.get "bns_sections_mapped"
  | "bnss_sections" => st.get "bnss_sections_mapped"
  | "bsa_sections" => st.get "bsa_sections_mapped"
  | "forensic_guidelines" => st.get "forensic_guidelines_mapped"
  | "stats" => none
  | k => st.get k

/-- The fixed key list of the dict `format_state_for_display` builds
(`routes/utils.py` lines 55-92), in source order. -/
def display_keys : List String :=
  ["workflow_id", "pdf_filename", "pdf_content_preview",
   "pdf_content_in_english_preview", "fir_facts", "ndps_sections",
   "bns_sections", "bnss_sections", "bsa_sections", "forensic_guidelines",
   "next_steps", "investigation_plan", "evidence_checklist", "dos", "donts",
   "potential_prosecution_weaknesses", "historical_cases",
   "investigation_and_legal_timeline", "defence_perspective_rebuttal",
   "summary_for_the_court", "chargesheet", "sections", "stats"]

/-- `format_state_for_display` (`routes/utils.py` lines 30-93), served by
`GET /api/results/{workflow_id}` (`routes/results.py` lines 26-43). -/
def format_state_for_display (st : GraphState) : List (String × Option String) :=
  display_keys.map (fun k => (k, display_source_field st k))

/-! ## Concrete task implementations used as test oracles -/

/-- The state fields each graph node's `return` statement produces, read off
the component sources (`read_pdf.py` line 39, `fir_fact_extraction.py` line
180, `bnss_legal_mapping.py` line 244, `bsa_legal_mapping.py` line 208,
`inestigation_and_legal_timeline.py` line 223, `historical_cases.py` line
739, `investigation_plan.py` line 188, `evidence_checklist.py` line 197,
`dos_and_dont.py` line 257, `potential_prosecution_weaknesses.py` line 128,
`defence_perspective_rebuttal.py` line 164, `summary_for_the_court.py` line
126, `chargesheet.py` line 186; for the two mapping components whose source
files are not present the field comes from `state.py`). -/
def node_output_fields : String → List String
  | "read_pdf" => ["pdf_content_in_english"]
  | "extract_fir_fact" => ["fir_facts"]
  | "ndps_legal_mapping" => ["ndps_sections_mapped"]
  | "bns_legal_mapping" => ["bns_sections_mapped"]
  | "bnss_legal_mapping" => ["bnss_sections_mapped"]
  | "bsa_legal_mapping" => ["bsa_sections_mapped"]
  | "investigation_and_legal_timeline" => ["investigation_and_legal_timeline"]
  | "historical_cases" => ["historical_cases"]
  | "investigation_plan" => ["investigation_plan"]
  | "generate_evidence_checklist" => ["evidence_checklist"]
  | "generate_dos_and_donts" => ["dos", "donts"]
  | "generate_potential_prosecution_weaknesses" => ["potential_prosecution_weaknesses"]
  | "generate_defence_perspective_rebuttal" => ["defence_perspective_rebuttal"]
  | "generate_summary_for_the_court" => ["summary_for_the_court"]
  | "generate_chargesheet" => ["chargesheet"]
  | _ => []

/-- A task oracle in which every node succeeds and produces its declared
output fields; `read_pdf` raises its `ValueError` when neither `pdf_bytes`
nor `pdf_path` is in the state (`read_pdf.py` line 31). -/
def happy_impl : TaskImpl := fun n st =>
  if n = "read_pdf" then
    if (st.get "pdf_bytes").isSome ∨ (st.get "pdf_path").isSome then
      Except.ok [("pdf_content_in_english", "TEXT")]
    else Except.error "Either pdf_bytes or pdf_path is required in state."
  else Except.ok ((node_output_fields n).map (fun f => (f, "out")))

/-- Like `happy_impl`, but the `historical_cases` node raises. -/
def hc_fail_impl : TaskImpl := fun n st =>
  if n = "historical_cases" then Except.error "boom" else happy_impl n st

/-- A task oracle in which every node unconditionally produces its declared
output fields except `historical_cases`, which raises. -/
def hc_fail_total_impl : TaskImpl := fun n _ =>
  if n = "historical_cases" then Except.error "boom"
  else Except.ok ((node_output_fields n).map (fun f => (f, "out")))

/-- A task oracle in which every node unconditionally succeeds, producing
its declared output fields. -/
def all_ok_impl : TaskImpl := fun n _ =>
  Except.ok ((node_output_fields n).map (fun f => (f, "out")))

/-! ## Predicates written from the specification's words (for refutation) -/

/-- Modelled from the spec: §7 requires a failed prerequisite's dependents
to be "reported as `UnresolvedDependency` ... each recorded individually".
The job record's `error` field is the only failure-reporting channel the
code has, so this holds of a run and a task when that field names
`UnresolvedDependency` and the task. -/
def reported_as_unresolved_dependency (r : BackgroundResult) (node : String) : Prop :=
  ∃ msg, r.finalJob.error = some msg ∧
    "UnresolvedDependency".toList <:+: msg.toList ∧ node.toList <:+: msg.toList

/-! # Theorems -/

/-! ## Routing lemmas -/

theorem mem_if_singleton {c : Prop} [Decidable c] {x a : String} :
    x ∈ (if c then [a] else ([] : List String)) ↔ c ∧ x = a := by
  split <;> simp_all

theorem components_eq_map_fst :
    components_needing_historical_cases = dependent_section_nodes.map Prod.fst := by
  decide

theorem mem_route_all_raw_of_needs {sections : List String}
    (h : needs_historical_cases sections) {n : String} :
    n ∈ route_all_sections_raw sections ↔
      n = "historical_cases" ∨
        ∃ p ∈ independent_section_nodes, p.1 ∈ sections ∧ n = p.2 := by
  unfold route_all_sections_raw
  rw [if_pos (Or.inl h), if_pos h]
  simp [independent_section_nodes, mem_if_singleton, or_assoc]

theorem mem_route_all_raw_of_not_needs {sections : List String}
    (h : ¬ needs_historical_cases sections) {n : String} :
    n ∈ route_all_sections_raw sections ↔
      ("historical_cases" ∈ sections ∧ n = "historical_cases") ∨
        (∃ p ∈ independent_section_nodes, p.1 ∈ sections ∧ n = p.2) ∨
        (∃ p ∈ dependent_section_nodes, p.1 ∈ sections ∧ n = p.2) := by
  unfold route_all_sections_raw
  rw [if_neg h]
  simp [independent_section_nodes, dependent_section_nodes, mem_if_singleton,
    h, or_assoc]

theorem mem_route_from_raw {sections : List String} {n : String} :
    n ∈ route_from_historical_cases_raw sections ↔
      ∃ p ∈ dependent_section_nodes, p.1 ∈ sections ∧ n = p.2 := by
  unfold route_from_historical_cases_raw
  simp [dependent_section_nodes, mem_if_singleton, or_assoc]

theorem route_all_eq_raw {sections : List String}
    (h : needs_historical_cases sections ∨ "historical_cases" ∈ sections) :
    route_all_sections sections = route_all_sections_raw sections := by
  have hm : "historical_cases" ∈ route_all_sections_raw sections := by
    unfold route_all_sections_raw
    rw [if_pos h]
    simp
  unfold route_all_sections
  rw [if_neg (List.ne_nil_of_mem hm)]

theorem route_from_eq_raw {sections : List String}
    (h : needs_historical_cases sections) :
    route_from_historical_cases sections = route_from_historical_cases_raw sections := by
  obtain ⟨s, hs, hsec⟩ := h
  have hp : ∃ p ∈ dependent_section_nodes, p.1 = s := by
    rw [components_eq_map_fst] at hs
    obtain ⟨p, hp, hps⟩ := List.mem_map.1 hs
    exact ⟨p, hp, hps⟩
  obtain ⟨p, hp, hps⟩ := hp
  have hm : p.2 ∈ route_from_historical_cases_raw sections :=
    (mem_route_from_raw).2 ⟨p, hp, by rw [hps]; exact hsec, rfl⟩
  unfold route_from_historical_cases
  rw [if_neg (List.ne_nil_of_mem hm)]

theorem count_hc_raw_of_needs {sections : List String}
    (h : needs_historical_cases sections) :
    (route_all_sections_raw sections).count "historical_cases" = 1 := by
  unfold route_all_sections_raw
  rw [if_pos (Or.inl h), if_pos h]
  by_cases h1 : "ndps" ∈ sections <;>
    by_cases h2 : "bns" ∈ sections <;>
      by_cases h3 : "bnss" ∈ sections <;>
        by_cases h4 : "bsa" ∈ sections <;>
          by_cases h5 : "timeline" ∈ sections <;>
            simp [h1, h2, h3, h4, h5]

/-- C1: when at least one selected section depends on the historical-cases
prerequisite, the first routing wave contains `historical_cases` exactly
once (auto-added, deduplicated) together with exactly the requested
zero-dependency tasks and no dependent task, and the wave routed after
`historical_cases` completes contains exactly the requested dependent
tasks. -/
theorem historical_cases_two_wave_resolution (sections : List String)
    (h : needs_historical_cases sections) :
    (route_all_sections sections).count "historical_cases" = 1 ∧
    (∀ p ∈ independent_section_nodes,
      (p.2 ∈ route_all_sections sections ↔ p.1 ∈ sections)) ∧
    (∀ n ∈ route_all_sections sections,
      n = "historical_cases" ∨
        ∃ p ∈ independent_section_nodes, p.1 ∈ sections ∧ n = p.2) ∧
    (∀ p ∈ dependent_section_nodes, p.2 ∉ route_all_sections sections) ∧
    (∀ p ∈ dependent_section_nodes,
      (p.2 ∈ route_from_historical_cases sections ↔ p.1 ∈ sections)) ∧
    (∀ n ∈ route_from_historical_cases sections,
      ∃ p ∈ dependent_section_nodes, p.1 ∈ sections ∧ n = p.2) := by
  rw [route_all_eq_raw (Or.inl h), route_from_eq_raw h]
  refine ⟨count_hc_raw_of_needs h, ?_, ?_, ?_, ?_, ?_⟩
  · intro p hp
    rw [mem_route_all_raw_of_needs h]
    fin_cases hp <;> simp [independent_section_nodes]
  · intro n hn
    exact (mem_route_all_raw_of_needs h).1 hn
  · intro p hp hmem
    rw [mem_route_all_raw_of_needs h] at hmem
    fin_cases hp <;> simp_all [independent_section_nodes]
  · intro p hp
    rw [mem_route_from_raw]
    fin_cases hp <;> simp [dependent_section_nodes]
  · intro n hn
    exact (mem_route_from_raw).1 hn

theorem historical_cases_two_wave_resolution_witness :
    (route_all_sections ["evidence", "ndps"]).count "historical_cases" = 1 ∧
    "generate_evidence_checklist" ∉ route_all_sections ["evidence", "ndps"] :=
  ⟨(historical_cases_two_wave_resolution ["evidence", "ndps"] (by decide)).1,
   (historical_cases_two_wave_resolution ["evidence", "ndps"] (by decide)).2.2.2.1
     ("evidence", "generate_evidence_checklist") (by decide)⟩

/-- C7: when no selected section depends on the historical-cases
prerequisite, the first routing wave contains exactly the requested tasks
(each requested section's node, nothing else), and the routing step after
`historical_cases` schedules nothing (`[END]`). -/
theorem no_prerequisite_single_wave (sections : List String)
    (hne : sections ≠ [])
    (hvalid : ∀ s ∈ sections,
      s = "historical_cases" ∨ ∃ p ∈ independent_section_nodes, s = p.1) :
    ("historical_cases" ∈ route_all_sections sections ↔
      "historical_cases" ∈ sections) ∧
    (∀ p ∈ independent_section_nodes,
      (p.2 ∈ route_all_sections sections ↔ p.1 ∈ sections)) ∧
    (∀ n ∈ route_all_sections sections,
      ("historical_cases" ∈ sections ∧ n = "historical_cases") ∨
        ∃ p ∈ independent_section_nodes, p.1 ∈ sections ∧ n = p.2) ∧
    route_from_historical_cases sections = [END] := by
  have hnot : ¬ needs_historical_cases sections := by
    rintro ⟨s, hs, hsec⟩
    have hv := hvalid s hsec
    fin_cases hs <;> simp_all [independent_section_nodes]
  have hdep : ∀ s ∈ components_needing_historical_cases, s ∉ sections := by
    intro s hs hmem
    exact hnot ⟨s, hs, hmem⟩
  have hdep' : ∀ p ∈ dependent_section_nodes, p.1 ∉ sections := by
    intro p hp
    refine hdep p.1 ?_
    rw [components_eq_map_fst]
    exact List.mem_map_of_mem Prod.fst hp
  have hraw_from : route_from_historical_cases_raw sections = [] := by
    unfold route_from_historical_cases_raw
    rw [if_neg (hdep "investigation_plan" (by decide)),
      if_neg (hdep "evidence" (by decide)),
      if_neg (hdep "dos_and_donts" (by decide)),
      if_neg (hdep "weaknesses" (by decide)),
      if_neg (hdep "defence_rebuttal" (by decide)),
      if_neg (hdep "court_summary" (by decide)),
      if_neg (hdep "chargesheet" (by decide))]
    rfl
  have hfrom : route_from_historical_cases sections = [END] := by
    unfold route_from_historical_cases
    rw [hraw_from]
    simp
  have hraw_ne : route_all_sections_raw sections ≠ [] := by
    obtain ⟨s0, hs0⟩ := List.exists_mem_of_ne_nil sections hne
    rcases hvalid s0 hs0 with hh | ⟨p, hp, hps⟩
    · refine List.ne_nil_of_mem (a := "historical_cases") ?_
      rw [mem_route_all_raw_of_not_needs hnot]
      exact Or.inl ⟨by rw [← hh]; exact hs0, rfl⟩
    · refine List.ne_nil_of_mem (a := p.2) ?_
      rw [mem_route_all_raw_of_not_needs hnot]
      exact Or.inr (Or.inl ⟨p, hp, by rw [← hps]; exact hs0, rfl⟩)
  have hall : route_all_sections sections = route_all_sections_raw sections := by
    unfold route_all_sections
    rw [if_neg hraw_ne]
  rw [hall, hfrom]
  refine ⟨?_, ?_, ?_, rfl⟩
  · rw [mem_route_all_raw_of_not_needs hnot]
    simp [independent_section_nodes, dependent_section_nodes]
  · intro p hp
    rw [mem_route_all_raw_of_not_needs hnot]
    fin_cases hp <;>
      simp [independent_section_nodes, dependent_section_nodes,
        hdep' ("investigation_plan", "investigation_plan") (by decide),
        hdep' ("evidence", "generate_evidence_checklist") (by decide),
        hdep' ("dos_and_donts", "generate_dos_and_donts") (by decide),
        hdep' ("weaknesses", "generate_potential_prosecution_weaknesses") (by decide),
        hdep' ("defence_rebuttal", "generate_defence_perspective_rebuttal") (by decide),
        hdep' ("court_summary", "generate_summary_for_the_court") (by decide),
        hdep' ("chargesheet", "generate_chargesheet") (by decide)]
  · intro n hn
    rw [mem_route_all_raw_of_not_needs hnot] at hn
    rcases hn with hn | hn | hn
    · exact Or.inl hn
    · exact Or.inr hn
    · obtain ⟨p, hp, hmem, _⟩ := hn
      exact absurd hmem (hdep' p hp)

theorem no_prerequisite_single_wave_witness :
    route_from_historical_cases ["ndps", "historical_cases"] = [END] :=
  (no_prerequisite_single_wave ["ndps", "historical_cases"] (by decide)
    (by decide)).2.2.2

/-! ## Retry theorems -/

theorem retry_from_all_fail {E A : Type} (op : Nat → Except E A)
    (h : ∀ i, ∃ e, op i = Except.error e) :
    ∀ r attempt, retry_from op attempt r = (op (attempt + r), attempt + r + 1) := by
  intro r
  induction r with
  | zero =>
    intro attempt
    simp [retry_from]
  | succ r ih =>
    intro attempt
    obtain ⟨e, he⟩ := h attempt
    simp only [retry_from, he]
    rw [ih (attempt + 1)]
    have hx : attempt + 1 + r = attempt + (r + 1) := by omega
    rw [hx]

theorem retry_from_succeeds {E A : Type} (op : Nat → Except E A) (a : A) :
    ∀ k r attempt, k ≤ r →
      (∀ i, attempt ≤ i → i < attempt + k → ∃ e, op i = Except.error e) →
      op (attempt + k) = Except.ok a →
      retry_from op attempt r = (Except.ok a, attempt + k + 1) := by
  intro k
  induction k with
  | zero =>
    intro r attempt _ _ hok
    rw [Nat.add_zero] at hok
    cases r with
    | zero => simp [retry_from, hok]
    | succ r => simp [retry_from, hok]
  | succ k ih =>
    intro r attempt hkr hfail hok
    cases r with
    | zero => omega
    | succ r =>
      obtain ⟨e, he⟩ := hfail attempt (Nat.le_refl _) (by omega)
      simp only [retry_from, he]
      have hrec := ih r (attempt + 1) (by omega)
        (fun i h1 h2 => hfail i (by omega) (by omega))
        (by
          have hx : attempt + 1 + k = attempt + (k + 1) := by omega
          rw [hx]
          exact hok)
      rw [hrec]
      have hx : attempt + 1 + k + 1 = attempt + (k + 1) + 1 := by omega
      rw [hx]

/-- C5: an operation that fails on every invocation is invoked exactly
`max_retries + 1` times (the configured max attempt count: 1 initial call
plus `max_retries` retries), after which the wrapper re-raises the last
underlying error (`retry.py` lines 30-32) — the `RetryExhausted` outcome
carrying the last error. -/
theorem retry_always_fails_exhausts {E A : Type} (max_retries : Nat)
    (op : Nat → Except E A) (h : ∀ i, ∃ e, op i = Except.error e) :
    ∃ e, op max_retries = Except.error e ∧
      exponential_backoff_retry max_retries op =
        (Except.error e, max_retries + 1) := by
  obtain ⟨e, he⟩ := h max_retries
  refine ⟨e, he, ?_⟩
  unfold exponential_backoff_retry
  rw [retry_from_all_fail op h max_retries 0]
  simp [he]

theorem retry_always_fails_exhausts_witness :
    ∃ e, (fun _ : Nat => (Except.error "boom" : Except String Nat)) 2 =
        Except.error e ∧
      exponential_backoff_retry 2
        (fun _ : Nat => (Except.error "boom" : Except String Nat)) =
        (Except.error e, 2 + 1) :=
  retry_always_fails_exhausts 2 (fun _ => Except.error "boom")
    (fun _ => ⟨"boom", rfl⟩)

/-- C6: an operation that fails on its first N-1 invocations and succeeds
on the N-th, with N within the attempt budget, makes the wrapper return
the success result after exactly N invocations. -/
theorem retry_succeeds_after_n {E A : Type} (max_retries N : Nat)
    (op : Nat → Except E A) (a : A)
    (hN : 1 ≤ N) (hle : N ≤ max_retries + 1)
    (hfail : ∀ i, i < N - 1 → ∃ e, op i = Except.error e)
    (hok : op (N - 1) = Except.ok a) :
    exponential_backoff_retry max_retries op = (Except.ok a, N) := by
  unfold exponential_backoff_retry
  have hrun := retry_from_succeeds op a (N - 1) max_retries 0 (by omega)
    (fun i h1 h2 => hfail i (by omega)) (by simpa using hok)
  rw [hrun]
  have hx : 0 + (N - 1) + 1 = N := by omega
  rw [hx]

/-! ## State-field lemmas -/

theorem lookup_none_of_all_ne {fs : List (String × String)} {k : String}
    (h : ∀ p ∈ fs, p.1 ≠ k) : fs.lookup k = none := by
  induction fs with
  | nil => rfl
  | cons p fs ih =>
    obtain ⟨a, b⟩ := p
    have ha : a ≠ k := h (a, b) (List.mem_cons_self _ _)
    have hb : (k == a) = false := beq_eq_false_iff_ne.mpr (fun he => ha he.symm)
    simp only [List.lookup, hb]
    exact ih (fun q hq => h q (List.mem_cons_of_mem _ hq))

theorem stored_of_get_pdf_bytes (stF : GraphState) (wid : String) :
    (stored_of stF wid).get "pdf_bytes" = none := by
  unfold stored_of GraphState.get GraphState.erase setField
  apply lookup_none_of_all_ne
  intro p hp
  rcases List.mem_cons.1 hp with h | h
  · simp [h]
  · have h2 := List.mem_of_mem_filter h
    have h3 := List.of_mem_filter h2
    exact of_decide_eq_true h3

theorem format_state_keys (st : GraphState) :
    (format_state_for_display st).map Prod.fst = display_keys := by
  simp only [format_state_for_display, List.map_map]
  have : (Prod.fst ∘ fun k => (k, display_source_field st k)) = id := by
    funext k
    rfl
  rw [this, List.map_id]

/-! ## Case-shape lemmas for the background task -/

theorem bg_eq_of_empty (impl : TaskImpl) (wid : String)
    (fb fn : Option String) (sl : List String) (isnew : Bool)
    (prior : Option GraphState)
    (hsec : (bg_graph_state fb fn sl isnew prior).sections = []) :
    process_workflow_background impl wid fb fn sl isnew prior =
      { frontTrace := bg_front0 isnew prior,
        finalJob := failedRecord "No sections selected for processing"
          (if (bg_loaded isnew prior).isSome then 10 else 5),
        invoked := [], checkpoint := none, storedResult := none } := by
  unfold process_workflow_background
  rw [if_pos hsec]

theorem bg_eq_of_ok (impl : TaskImpl) (wid : String)
    (fb fn : Option String) (sl : List String) (isnew : Bool)
    (prior : Option GraphState) (stF : GraphState)
    (hsec : (bg_graph_state fb fn sl isnew prior).sections ≠ [])
    (hok : (graph_stream impl (bg_graph_state fb fn sl isnew prior)).2 =
      Except.ok stF) :
    process_workflow_background impl wid fb fn sl isnew prior =
      { frontTrace := bg_front0 isnew prior ++ processingRecord 10 ::
          (List.range (bg_completed
              (graph_stream impl (bg_graph_state fb fn sl isnew prior)).1
              (graph_stream impl (bg_graph_state fb fn sl isnew prior)).2)).map
            (fun k => processingRecord (node_progress
              ((bg_graph_state fb fn sl isnew prior).sections.length + 2) (k + 1))),
        finalJob := completedRecord wid,
        invoked := (graph_stream impl (bg_graph_state fb fn sl isnew prior)).1,
        checkpoint := some stF,
        storedResult := some (stored_of stF wid) } := by
  unfold process_workflow_background
  rw [if_neg hsec]
  simp only [hok]

theorem bg_eq_of_error (impl : TaskImpl) (wid : String)
    (fb fn : Option String) (sl : List String) (isnew : Bool)
    (prior : Option GraphState) (e : String)
    (hsec : (bg_graph_state fb fn sl isnew prior).sections ≠ [])
    (herr : (graph_stream impl (bg_graph_state fb fn sl isnew prior)).2 =
      Except.error e) :
    process_workflow_background impl wid fb fn sl isnew prior =
      { frontTrace := bg_front0 isnew prior ++ processingRecord 10 ::
          (List.range (bg_completed
              (graph_stream impl (bg_graph_state fb fn sl isnew prior)).1
              (graph_stream impl (bg_graph_state fb fn sl isnew prior)).2)).map
            (fun k => processingRecord (node_progress
              ((bg_graph_state fb fn sl isnew prior).sections.length + 2) (k + 1))),
        finalJob := failedRecord e
          (if bg_completed (graph_stream impl (bg_graph_state fb fn sl isnew prior)).1
              (graph_stream impl (bg_graph_state fb fn sl isnew prior)).2 = 0
            then 10
            else node_progress ((bg_graph_state fb fn sl isnew prior).sections.length + 2)
              (bg_completed (graph_stream impl (bg_graph_state fb fn sl isnew prior)).1
                (graph_stream impl (bg_graph_state fb fn sl isnew prior)).2)),
        invoked := (graph_stream impl (bg_graph_state fb fn sl isnew prior)).1,
        checkpoint := none, storedResult := none } := by
  unfold process_workflow_background
  rw [if_neg hsec]
  simp only [herr]

theorem retry_succeeds_after_n_witness :
    exponential_backoff_retry 3
      (fun i => if i = 0 then (Except.error "e" : Except String Nat)
        else Except.ok 42) = (Except.ok 42, 2) :=
  retry_succeeds_after_n 3 2
    (fun i => if i = 0 then (Except.error "e" : Except String Nat)
      else Except.ok 42) 42
    (by omega) (by omega)
    (fun i hi => ⟨"e", by
      have hz : i = 0 := by omega
      subst hz
      rfl⟩)
    (by rfl)

/-! ## C9: the stored result never contains the raw PDF bytes -/

/-- C9: whenever a background run stores a result for its workflow id, the
stored state has no `pdf_bytes` field (`result.pop("pdf_bytes", None)` runs
before the store), and the results API response is built over a fixed key
list that does not contain `pdf_bytes`. -/
theorem completed_result_excludes_pdf_bytes (impl : TaskImpl)
    (workflow_id : String) (file_bytes filename : Option String)
    (sections_list : List String) (is_new_workflow : Bool)
    (prior : Option GraphState) (st : GraphState)
    (h : (process_workflow_background impl workflow_id file_bytes filename
        sections_list is_new_workflow prior).storedResult = some st) :
    st.get "pdf_bytes" = none ∧
    "pdf_bytes" ∉ (format_state_for_display st).map Prod.fst := by
  have hst : ∃ stF, st = stored_of stF workflow_id := by
    by_cases hsec : (bg_graph_state file_bytes filename sections_list
        is_new_workflow prior).sections = []
    · rw [bg_eq_of_empty impl workflow_id file_bytes filename sections_list
        is_new_workflow prior hsec] at h
      simp at h
    · rcases hout : (graph_stream impl (bg_graph_state file_bytes filename
          sections_list is_new_workflow prior)).2 with e | stF
      · rw [bg_eq_of_error impl workflow_id file_bytes filename sections_list
          is_new_workflow prior e hsec hout] at h
        simp at h
      · rw [bg_eq_of_ok impl workflow_id file_bytes filename sections_list
          is_new_workflow prior stF hsec hout] at h
        simp at h
        exact ⟨stF, h.symm⟩
  obtain ⟨stF, rfl⟩ := hst
  refine ⟨stored_of_get_pdf_bytes stF workflow_id, ?_⟩
  rw [format_state_keys]
  decide

theorem completed_result_excludes_pdf_bytes_witness :
    (GraphState.mk ["bnss"]
      [("workflow_id", "w1"), ("bnss_sections_mapped", "out"),
       ("fir_facts", "out"), ("pdf_content_in_english", "TEXT"),
       ("pdf_filename", "f.pdf")]).get "pdf_bytes" = none ∧
    "pdf_bytes" ∉ (format_state_for_display (GraphState.mk ["bnss"]
      [("workflow_id", "w1"), ("bnss_sections_mapped", "out"),
       ("fir_facts", "out"), ("pdf_content_in_english", "TEXT"),
       ("pdf_filename", "f.pdf")])).map Prod.fst :=
  completed_result_excludes_pdf_bytes happy_impl "w1" (some "PDF")
    (some "f.pdf") ["bnss"] true none _ (by decide)

/-! ## C10: invalid upload requests are rejected before any job is created -/

/-- C10: an upload whose sections form field is absent, unparseable or
parses to an empty list — and a new-workflow upload (no prior state) with
no file or a filename not ending in `.pdf` — raises HTTP 400, and the job
store is exactly what it was (no job record created). -/
theorem upload_rejected_without_job (parse_json : String → Option (List String))
    (sections : Option String) (file : Option (String × String))
    (prior : Option GraphState) (job_id : String)
    (job_store : List (String × JobRecord))
    (h : parsed_sections_list parse_json sections = [] ∨
      (prior = none ∧
        (file = none ∨ ∃ fname b, file = some (fname, b) ∧
          (fname = "" ∨ fname.endsWith ".pdf" = false)))) :
    upload_pdf parse_json sections file prior job_id job_store =
      (Except.error 400, job_store) := by
  unfold upload_pdf
  rcases h with h | ⟨hprior, hfile⟩
  · rw [if_pos h]
  · by_cases hs : parsed_sections_list parse_json sections = []
    · rw [if_pos hs]
    · rw [if_neg hs]
      subst hprior
      rcases hfile with hfile | ⟨fname, b, hfeq, hbad⟩
      · subst hfile
        simp
      · subst hfeq
        rcases hbad with hb | hb
        · simp [hb]
        · simp [hb]

theorem upload_rejected_without_job_witness :
    upload_pdf (fun _ => none) (some "notjson") (some ("f.pdf", "PDF")) none
      "j1" [("j0", initialJobRecord)] =
      (Except.error 400, [("j0", initialJobRecord)]) :=
  upload_rejected_without_job (fun _ => none) (some "notjson")
    (some ("f.pdf", "PDF")) none "j1" [("j0", initialJobRecord)]
    (Or.inl rfl)

/-! ## Progress and job-trace lemmas -/

theorem node_progress_ge (t c : Nat) : 10 ≤ node_progress t c := by
  unfold node_progress
  exact le_min (Nat.le_add_right _ _) (by norm_num)

theorem node_progress_le (t c : Nat) : node_progress t c ≤ 95 :=
  min_le_right _ _

theorem node_progress_mono (t : Nat) {c c' : Nat} (h : c ≤ c') :
    node_progress t c ≤ node_progress t c' := by
  unfold node_progress
  have hd : c * 85 / max t 1 ≤ c' * 85 / max t 1 :=
    Nat.div_le_div_right (Nat.mul_le_mul_right 85 h)
  exact min_le_min (Nat.add_le_add_left hd 10) (le_refl 95)

theorem front0_pairwise (isnew : Bool) (prior : Option GraphState) :
    (bg_front0 isnew prior).Pairwise (fun a b => a.progress ≤ b.progress) := by
  unfold bg_front0
  by_cases hl : (bg_loaded isnew prior).isSome
  · simp only [if_pos hl]
    decide
  · simp only [if_neg hl]
    decide

theorem front0_progress_le (isnew : Bool) (prior : Option GraphState) :
    ∀ r ∈ bg_front0 isnew prior, r.progress ≤ 10 := by
  intro r hr
  unfold bg_front0 at hr
  by_cases hl : (bg_loaded isnew prior).isSome
  · simp [hl] at hr
    rcases hr with rfl | rfl | rfl <;> decide
  · simp [hl] at hr
    rcases hr with rfl | rfl <;> decide

theorem front0_status (isnew : Bool) (prior : Option GraphState) :
    ∀ r ∈ bg_front0 isnew prior, r.status = "processing" := by
  intro r hr
  unfold bg_front0 at hr
  by_cases hl : (bg_loaded isnew prior).isSome
  · simp [hl] at hr
    rcases hr with rfl | rfl | rfl <;> rfl
  · simp [hl] at hr
    rcases hr with rfl | rfl <;> rfl

theorem mem_run_trace {r : JobRecord} {front0 : List JobRecord} {t c : Nat}
    {final : JobRecord}
    (hr : r ∈ (front0 ++ processingRecord 10 ::
      (List.range c).map (fun k => processingRecord (node_progress t (k + 1)))) ++
      [final]) :
    r ∈ front0 ∨ r = processingRecord 10 ∨
      (∃ k < c, r = processingRecord (node_progress t (k + 1))) ∨ r = final := by
  rcases List.mem_append.1 hr with h | h
  · rcases List.mem_append.1 h with h | h
    · exact Or.inl h
    · rcases List.mem_cons.1 h with rfl | h
      · exact Or.inr (Or.inl rfl)
      · obtain ⟨k, hk, rfl⟩ := List.mem_map.1 h
        exact Or.inr (Or.inr (Or.inl ⟨k, List.mem_range.1 hk, rfl⟩))
  · rcases List.mem_singleton.1 h with rfl
    exact Or.inr (Or.inr (Or.inr rfl))

theorem run_trace_props (t c : Nat) (front0 : List JobRecord) (final : JobRecord)
    (hfp : front0.Pairwise (fun a b => a.progress ≤ b.progress))
    (hf10 : ∀ r ∈ front0, r.progress ≤ 10)
    (hfinal_prog : ∀ k, k < c → node_progress t (k + 1) ≤ final.progress)
    (hfinal10 : 10 ≤ final.progress)
    (hfinal_cap : final.progress = 100 → final.status = "completed")
    (hfinal_95 : final.status ≠ "completed" → final.progress ≤ 95) :
    ((front0 ++ processingRecord 10 ::
        (List.range c).map (fun k => processingRecord (node_progress t (k + 1)))) ++
        [final]).Pairwise (fun a b => a.progress ≤ b.progress) ∧
    (∀ r ∈ (front0 ++ processingRecord 10 ::
        (List.range c).map (fun k => processingRecord (node_progress t (k + 1)))) ++
        [final], r.progress = 100 → r.status = "completed") ∧
    (∀ r ∈ (front0 ++ processingRecord 10 ::
        (List.range c).map (fun k => processingRecord (node_progress t (k + 1)))) ++
        [final], r.status ≠ "completed" → r.progress ≤ 95) := by
  refine ⟨?_, ?_, ?_⟩
  · rw [List.pairwise_append]
    refine ⟨?_, List.pairwise_singleton _ _, ?_⟩
    · rw [List.pairwise_append]
      refine ⟨hfp, ?_, ?_⟩
      · rw [List.pairwise_cons]
        constructor
        · intro b hb
          obtain ⟨k, hk, rfl⟩ := List.mem_map.1 hb
          exact node_progress_ge t (k + 1)
        · rw [List.pairwise_map]
          exact (List.pairwise_lt_range c).imp
            (fun hab => node_progress_mono t (by omega))
      · intro a ha b hb
        rcases List.mem_cons.1 hb with rfl | hb
        · exact hf10 a ha
        · obtain ⟨k, hk, rfl⟩ := List.mem_map.1 hb
          exact le_trans (hf10 a ha) (node_progress_ge t (k + 1))
    · intro a ha b hb
      rcases List.mem_singleton.1 hb with rfl
      rcases List.mem_append.1 ha with ha | ha
      · exact le_trans (hf10 a ha) hfinal10
      · rcases List.mem_cons.1 ha with rfl | ha
        · exact hfinal10
        · obtain ⟨k, hk, rfl⟩ := List.mem_map.1 ha
          exact hfinal_prog k (List.mem_range.1 hk)
  · intro r hr h100
    rcases mem_run_trace hr with h | rfl | ⟨k, hk, rfl⟩ | rfl
    · have := hf10 r h
      omega
    · exact absurd h100 (by decide)
    · have := node_progress_le t (k + 1)
      have hp : (processingRecord (node_progress t (k + 1))).progress =
        node_progress t (k + 1) := rfl
      omega
    · exact hfinal_cap h100
  · intro r hr hne
    rcases mem_run_trace hr with h | rfl | ⟨k, hk, rfl⟩ | rfl
    · exact le_trans (hf10 r h) (by omega)
    · decide
    · exact node_progress_le t (k + 1)
    · exact hfinal_95 hne

/-- C4: along the sequence of `job_store` snapshots of any background run —
what successive polls of `/status/{job_id}` observe — progress never
decreases, progress 100 occurs only with status `completed`, and every
snapshot that is not `completed` has progress at most 95. -/
theorem job_progress_monotone (impl : TaskImpl) (wid : String)
    (fb fn : Option String) (sl : List String) (isnew : Bool)
    (prior : Option GraphState) :
    ((process_workflow_background impl wid fb fn sl isnew prior).jobTrace).Pairwise
      (fun a b => a.progress ≤ b.progress) ∧
    (∀ r ∈ (process_workflow_background impl wid fb fn sl isnew prior).jobTrace,
      r.progress = 100 → r.status = "completed") ∧
    (∀ r ∈ (process_workflow_background impl wid fb fn sl isnew prior).jobTrace,
      r.status ≠ "completed" → r.progress ≤ 95) := by
  by_cases hsec : (bg_graph_state fb fn sl isnew prior).sections = []
  · rw [bg_eq_of_empty impl wid fb fn sl isnew prior hsec]
    simp only [BackgroundResult.jobTrace]
    unfold bg_front0
    by_cases hl : (bg_loaded isnew prior).isSome
    · simp only [if_pos hl]
      exact ⟨by decide, by decide, by decide⟩
    · simp only [if_neg hl]
      exact ⟨by decide, by decide, by decide⟩
  · rcases hout : (graph_stream impl (bg_graph_state fb fn sl isnew prior)).2
      with e | stF
    · rw [bg_eq_of_error impl wid fb fn sl isnew prior e hsec hout]
      simp only [BackgroundResult.jobTrace]
      apply run_trace_props
      · exact front0_pairwise isnew prior
      · exact front0_progress_le isnew prior
      · intro k hk
        have hc0 : bg_completed
            (graph_stream impl (bg_graph_state fb fn sl isnew prior)).1
            (graph_stream impl (bg_graph_state fb fn sl isnew prior)).2 ≠ 0 := by
          omega
        simp only [failedRecord]
        rw [if_neg hc0]
        exact node_progress_mono _ (by omega)
      · simp only [failedRecord]
        split
        · exact Nat.le_refl 10
        · exact node_progress_ge _ _
      · intro h100
        exfalso
        simp only [failedRecord] at h100
        split at h100
        · exact absurd h100 (by decide)
        · have := node_progress_le
            ((bg_graph_state fb fn sl isnew prior).sections.length + 2)
            (bg_completed (graph_stream impl (bg_graph_state fb fn sl isnew prior)).1
              (graph_stream impl (bg_graph_state fb fn sl isnew prior)).2)
          omega
      · intro _
        simp only [failedRecord]
        split
        · exact by norm_num
        · exact node_progress_le _ _
    · rw [bg_eq_of_ok impl wid fb fn sl isnew prior stF hsec hout]
      simp only [BackgroundResult.jobTrace]
      apply run_trace_props
      · exact front0_pairwise isnew prior
      · exact front0_progress_le isnew prior
      · intro k _
        exact le_trans (node_progress_le _ _) (by norm_num : (95 : Nat) ≤ 100)
      · exact (by norm_num : (10 : Nat) ≤ 100)
      · intro _
        rfl
      · intro hne
        exact absurd rfl hne

/-- C8 (amended): every job snapshot before the terminal write has the
single pre-terminal status `"processing"` (the code writes no `"pending"`
or `"running"`), the terminal snapshot is `"completed"` or `"failed"`, and
the terminal snapshot is the last one — so a terminal status never changes
and no transition regresses. -/
theorem job_status_phases (impl : TaskImpl) (wid : String)
    (fb fn : Option String) (sl : List String) (isnew : Bool)
    (prior : Option GraphState) :
    (∀ r ∈ (process_workflow_background impl wid fb fn sl isnew prior).frontTrace,
      r.status = "processing") ∧
    ((process_workflow_background impl wid fb fn sl isnew prior).finalJob.status =
        "completed" ∨
      (process_workflow_background impl wid fb fn sl isnew prior).finalJob.status =
        "failed") ∧
    (process_workflow_background impl wid fb fn sl isnew prior).jobTrace =
      (process_workflow_background impl wid fb fn sl isnew prior).frontTrace ++
        [(process_workflow_background impl wid fb fn sl isnew prior).finalJob] := by
  have hfront : ∀ (t c : Nat),
      ∀ r ∈ bg_front0 isnew prior ++ processingRecord 10 ::
        (List.range c).map (fun k => processingRecord (node_progress t (k + 1))),
      r.status = "processing" := by
    intro t c r hr
    rcases List.mem_append.1 hr with h | h
    · exact front0_status isnew prior r h
    · rcases List.mem_cons.1 h with rfl | h
      · rfl
      · obtain ⟨k, _, rfl⟩ := List.mem_map.1 h
        rfl
  by_cases hsec : (bg_graph_state fb fn sl isnew prior).sections = []
  · rw [bg_eq_of_empty impl wid fb fn sl isnew prior hsec]
    exact ⟨front0_status isnew prior, Or.inr rfl, rfl⟩
  · rcases hout : (graph_stream impl (bg_graph_state fb fn sl isnew prior)).2
      with e | stF
    · rw [bg_eq_of_error impl wid fb fn sl isnew prior e hsec hout]
      exact ⟨hfront _ _, Or.inr rfl, rfl⟩
    · rw [bg_eq_of_ok impl wid fb fn sl isnew prior stF hsec hout]
      exact ⟨hfront _ _, Or.inl rfl, rfl⟩

/-- C8 counterexample: a job's very first snapshot — written by
`upload_pdf` at creation — already has status `"processing"`, not
`"pending"`, and no snapshot of the run ever carries status `"pending"`
or `"running"`: the claimed `pending -> running` prefix does not exist in
the code, which uses the single pre-terminal status `"processing"`. -/
theorem job_status_no_pending_cex :
    (process_workflow_background happy_impl "w1" (some "PDF") (some "f.pdf")
      ["bnss"] true none).jobTrace.head? = some initialJobRecord ∧
    initialJobRecord.status = "processing" ∧
    (∀ r ∈ (process_workflow_background happy_impl "w1" (some "PDF")
      (some "f.pdf") ["bnss"] true none).jobTrace,
      r.status ≠ "pending" ∧ r.status ≠ "running") :=
  ⟨by decide, by decide, by decide⟩

/-! ## C3: a historical_cases failure and its dependents -/

theorem graph_stream_hc_fails (impl : TaskImpl) (st : GraphState) (e : String)
    (hdep : needs_historical_cases st.sections)
    (hrp : ∀ s, ∃ u, impl "read_pdf" s = Except.ok u)
    (hff : ∀ s, ∃ u, impl "extract_fir_fact" s = Except.ok u)
    (hhc : ∀ s, impl "historical_cases" s = Except.error e) :
    graph_stream impl st =
      (["read_pdf", "extract_fir_fact", "historical_cases"], Except.error e) := by
  obtain ⟨u1, h1⟩ := hrp st
  obtain ⟨u2, h2⟩ := hff (applyUpdate st u1)
  obtain ⟨rest, hra⟩ : ∃ rest,
      route_all_sections st.sections = "historical_cases" :: rest := by
    rw [route_all_eq_raw (Or.inl hdep)]
    unfold route_all_sections_raw
    rw [if_pos (Or.inl hdep)]
    exact ⟨_, rfl⟩
  unfold graph_stream
  rw [hra, List.filter_cons_of_pos (by decide)]
  simp only [List.cons_append, List.nil_append]
  simp only [runNodes, h1, h2, hhc]

/-- C3 (amended): when the requested sections include a dependent of the
historical-cases prerequisite and the `historical_cases` node raises, no
dependent task node is invoked (each dependent's invocation count is 0) —
but the dependents are not individually reported: the job simply becomes
`failed` carrying the single error of `historical_cases`. -/
theorem hc_failure_blocks_dependents (impl : TaskImpl) (wid : String)
    (fb fn : Option String) (sl : List String) (isnew : Bool)
    (prior : Option GraphState) (e : String)
    (hdep : needs_historical_cases
      (bg_graph_state fb fn sl isnew prior).sections)
    (hrp : ∀ s, ∃ u, impl "read_pdf" s = Except.ok u)
    (hff : ∀ s, ∃ u, impl "extract_fir_fact" s = Except.ok u)
    (hhc : ∀ s, impl "historical_cases" s = Except.error e) :
    (process_workflow_background impl wid fb fn sl isnew prior).finalJob.status =
      "failed" ∧
    (process_workflow_background impl wid fb fn sl isnew prior).finalJob.error =
      some e ∧
    (process_workflow_background impl wid fb fn sl isnew prior).invoked =
      ["read_pdf", "extract_fir_fact", "historical_cases"] ∧
    (∀ p ∈ dependent_section_nodes,
      ((process_workflow_background impl wid fb fn sl isnew prior).invoked).count
        p.2 = 0) := by
  have hsec : (bg_graph_state fb fn sl isnew prior).sections ≠ [] := by
    obtain ⟨s, _, hs⟩ := hdep
    exact List.ne_nil_of_mem hs
  have hgs := graph_stream_hc_fails impl (bg_graph_state fb fn sl isnew prior)
    e hdep hrp hff hhc
  have hout : (graph_stream impl (bg_graph_state fb fn sl isnew prior)).2 =
      Except.error e := by rw [hgs]
  have hinv : (graph_stream impl (bg_graph_state fb fn sl isnew prior)).1 =
      ["read_pdf", "extract_fir_fact", "historical_cases"] := by rw [hgs]
  rw [bg_eq_of_error impl wid fb fn sl isnew prior e hsec hout]
  refine ⟨rfl, rfl, ?_, ?_⟩
  · simpa using hinv
  · intro p hp
    simp only [hinv]
    fin_cases hp <;> decide

theorem hc_failure_blocks_dependents_witness :
    (process_workflow_background hc_fail_total_impl "w1" (some "PDF")
      (some "f.pdf") ["evidence", "dos_and_donts"] true none).finalJob.status =
      "failed" ∧
    (process_workflow_background hc_fail_total_impl "w1" (some "PDF")
      (some "f.pdf") ["evidence", "dos_and_donts"] true none).finalJob.error =
      some "boom" ∧
    (process_workflow_background hc_fail_total_impl "w1" (some "PDF")
      (some "f.pdf") ["evidence", "dos_and_donts"] true none).invoked =
      ["read_pdf", "extract_fir_fact", "historical_cases"] ∧
    (∀ p ∈ dependent_section_nodes,
      ((process_workflow_background hc_fail_total_impl "w1" (some "PDF")
        (some "f.pdf") ["evidence", "dos_and_donts"] true none).invoked).count
        p.2 = 0) :=
  hc_failure_blocks_dependents hc_fail_total_impl "w1" (some "PDF")
    (some "f.pdf") ["evidence", "dos_and_donts"] true none "boom"
    (by decide)
    (fun _ => ⟨[("pdf_content_in_english", "out")], rfl⟩)
    (fun _ => ⟨[("fir_facts", "out")], rfl⟩)
    (fun _ => rfl)

/-- C3 counterexample: with sections `["evidence", "dos_and_donts"]` and a
failing `historical_cases`, neither dependent task is reported as
`UnresolvedDependency` — the job's only failure report is the single error
string of `historical_cases` — even though, as the claim also says, no
dependent node is invoked. -/
theorem unresolved_dependency_not_reported_cex :
    (process_workflow_background hc_fail_impl "w1" (some "PDF") (some "f.pdf")
      ["evidence", "dos_and_donts"] true none).finalJob.error = some "boom" ∧
    ¬ reported_as_unresolved_dependency
      (process_workflow_background hc_fail_impl "w1" (some "PDF") (some "f.pdf")
        ["evidence", "dos_and_donts"] true none) "generate_evidence_checklist" ∧
    ¬ reported_as_unresolved_dependency
      (process_workflow_background hc_fail_impl "w1" (some "PDF") (some "f.pdf")
        ["evidence", "dos_and_donts"] true none) "generate_dos_and_donts" ∧
    "generate_evidence_checklist" ∉
      (process_workflow_background hc_fail_impl "w1" (some "PDF") (some "f.pdf")
        ["evidence", "dos_and_donts"] true none).invoked ∧
    "generate_dos_and_donts" ∉
      (process_workflow_background hc_fail_impl "w1" (some "PDF") (some "f.pdf")
        ["evidence", "dos_and_donts"] true none).invoked := by
  have herr : (process_workflow_background hc_fail_impl "w1" (some "PDF")
      (some "f.pdf") ["evidence", "dos_and_donts"] true none).finalJob.error =
      some "boom" := by decide
  refine ⟨herr, ?_, ?_, by decide, by decide⟩
  · rintro ⟨msg, hmsg, hsub, -⟩
    rw [herr] at hmsg
    cases hmsg
    exact absurd hsub (by decide)
  · rintro ⟨msg, hmsg, hsub, -⟩
    rw [herr] at hmsg
    cases hmsg
    exact absurd hsub (by decide)

/-! ## C2: resubmission and incrementality -/

theorem runNodes_all_ok (impl : TaskImpl)
    (hall : ∀ n s, ∃ u, impl n s = Except.ok u) :
    ∀ ns st, (runNodes impl ns st).1 = ns ∧
      ∃ st', (runNodes impl ns st).2 = Except.ok st' := by
  intro ns
  induction ns with
  | nil =>
    intro st
    exact ⟨rfl, st, rfl⟩
  | cons n rest ih =>
    intro st
    obtain ⟨u, hu⟩ := hall n st
    obtain ⟨h1, st', h2⟩ := ih (applyUpdate st u)
    simp only [runNodes, hu]
    exact ⟨by rw [h1], st', h2⟩

theorem runNodes_sections (impl : TaskImpl) :
    ∀ ns st st', (runNodes impl ns st).2 = Except.ok st' →
      st'.sections = st.sections := by
  intro ns
  induction ns with
  | nil =>
    intro st st' h
    cases h
    rfl
  | cons n rest ih =>
    intro st st' h
    rcases he : impl n st with e | u
    · simp only [runNodes, he] at h
      exact Except.noConfusion h
    · simp only [runNodes, he] at h
      exact ih (applyUpdate st u) st' h

theorem graph_stream_all_ok (impl : TaskImpl) (st : GraphState)
    (hall : ∀ n s, ∃ u, impl n s = Except.ok u) :
    (graph_stream impl st).1 =
      ["read_pdf", "extract_fir_fact"] ++
        (route_all_sections st.sections).filter (fun n => n ≠ END) ++
        (if "historical_cases" ∈
            (route_all_sections st.sections).filter (fun n => n ≠ END)
          then (route_from_historical_cases st.sections).filter (fun n => n ≠ END)
          else []) ∧
    ∃ stF, (graph_stream impl st).2 = Except.ok stF := by
  obtain ⟨h1, st1, h2⟩ := runNodes_all_ok impl hall
    (["read_pdf", "extract_fir_fact"] ++
      (route_all_sections st.sections).filter (fun n => n ≠ END)) st
  have hsec1 : st1.sections = st.sections :=
    runNodes_sections impl _ st st1 h2
  unfold graph_stream
  simp only [h2]
  by_cases hmem : "historical_cases" ∈
      (route_all_sections st.sections).filter (fun n => n ≠ END)
  · simp only [if_pos hmem]
    obtain ⟨h3, st2, h4⟩ := runNodes_all_ok impl hall
      ((route_from_historical_cases st1.sections).filter (fun n => n ≠ END)) st1
    rw [hsec1] at h3
    constructor
    · simp only [h1, h3, hsec1, List.append_assoc]
    · exact ⟨st2, h4⟩
  · simp only [if_neg hmem]
    constructor
    · simp only [h1, List.append_assoc, List.append_nil]
    · exact ⟨st1, rfl⟩

/-- C2 (amended): re-submitting sections for an existing session merges
them with the prior sections and re-runs the full graph: the invoked nodes
are exactly the fixed path plus every node routed for the merged section
set, regardless of which output fields are already present in the loaded
prior state.  Nothing is filtered by produced-fields, so a re-submission
never "completes without invoking any TaskUnit". -/
theorem resubmission_reinvokes_all (impl : TaskImpl) (wid : String)
    (sl : List String) (p : GraphState)
    (hall : ∀ n s, ∃ u, impl n s = Except.ok u)
    (hne : merge_sections p.sections sl ≠ []) :
    (process_workflow_background impl wid none none sl false (some p)).invoked =
      ["read_pdf", "extract_fir_fact"] ++
        (route_all_sections (merge_sections p.sections sl)).filter
          (fun n => n ≠ END) ++
        (if "historical_cases" ∈
            (route_all_sections (merge_sections p.sections sl)).filter
              (fun n => n ≠ END)
          then (route_from_historical_cases (merge_sections p.sections sl)).filter
            (fun n => n ≠ END)
          else []) := by
  have hgs : bg_graph_state none none sl false (some p) =
      { p with sections := merge_sections p.sections sl } := by
    unfold bg_graph_state bg_loaded
    simp
  have hsec : (bg_graph_state none none sl false (some p)).sections ≠ [] := by
    rw [hgs]
    exact hne
  obtain ⟨hinv, stF, hout⟩ := graph_stream_all_ok impl
    (bg_graph_state none none sl false (some p)) hall
  rw [bg_eq_of_ok impl wid none none sl false (some p) stF hsec hout]
  rw [hgs] at hinv
  exact hinv

theorem resubmission_reinvokes_all_witness :
    (process_workflow_background all_ok_impl "w1" none none ["bnss"] false
      (some (GraphState.mk ["bnss"] [("bnss_sections_mapped", "out")]))).invoked =
      ["read_pdf", "extract_fir_fact", "bnss_legal_mapping"] :=
  (resubmission_reinvokes_all all_ok_impl "w1" ["bnss"]
    (GraphState.mk ["bnss"] [("bnss_sections_mapped", "out")])
    (fun n s => ⟨(node_output_fields n).map (fun f => (f, "out")), rfl⟩)
    (by decide)).trans (by decide)

/-- C2 counterexample: after a completed run with sections `["bnss"]` for a
session, the checkpointer state already holds `bnss_sections_mapped`; yet
re-submitting exactly `["bnss"]` for the same session loads that state and
still invokes `bnss_legal_mapping` again (along with the fixed path) —
the run does not complete without invoking any TaskUnit, and no
produced-fields filter exists. -/
theorem resubmission_not_idempotent_cex :
    ((process_workflow_background happy_impl "w1" (some "PDF") (some "f.pdf")
        ["bnss"] true none).checkpoint.bind
      (fun st => st.get "bnss_sections_mapped")) = some "out" ∧
    "bnss_legal_mapping" ∈
      (process_workflow_background happy_impl "w1" none none ["bnss"] false
        (process_workflow_background happy_impl "w1" (some "PDF")
          (some "f.pdf") ["bnss"] true none).checkpoint).invoked ∧
    (process_workflow_background happy_impl "w1" none none ["bnss"] false
      (process_workflow_background happy_impl "w1" (some "PDF")
        (some "f.pdf") ["bnss"] true none).checkpoint).invoked ≠ [] :=
  ⟨by decide, by decide, by decide⟩

end NdpsApp
